import Mathlib

/-!
Shallow embedding of the `sevseg` TinyGo 7-segment display driver
(src/sevseg.go) and proofs about its public operations.

Machine integers are modelled as `Nat` (for `uint8`/`uint32`, with `% 256`
resp. `% 2^32` where the Go arithmetic can wrap) and `Int` (for `int32`,
with the one relevant wrap, negation of the minimum value, made explicit).
Pin slices are represented by their lengths; electrical pin effects of a
refresh tick are returned explicitly in a `RefreshResult`.  A Go slice
index that would panic (out-of-bounds access) is modelled by returning
`none` from the embedded operation.
-/

namespace SevsegModel

/-- The fixed segment-code table of `getSegmentCode` (src/sevseg.go:730),
index 0–40, bit order GFEDCBA with DP as bit 7. -/
def segmentCodes : List Nat :=
  [ 0b00111111, -- 0  '0'
    0b0000110,  -- 1  '1'
    0b01011011, -- 2  '2'
    0b01001111, -- 3  '3'
    0b01100110, -- 4  '4'
    0b01101101, -- 5  '5'
    0b01111101, -- 6  '6'
    0b00000111, -- 7  '7'
    0b01111111, -- 8  '8'
    0b01101111, -- 9  '9'
    0b01110111, -- 10 'A'
    0b01111100, -- 11 'b'
    0b00111001, -- 12 'C'
    0b01011110, -- 13 'd'
    0b01111001, -- 14 'E'
    0b01110001, -- 15 'F'
    0b00111101, -- 16 'G'
    0b01110110, -- 17 'H'
    0b00110000, -- 18 'I'
    0b00001110, -- 19 'J'
    0b01110110, -- 20 'K'
    0b00111000, -- 21 'L'
    0b00000000, -- 22 'M'
    0b01010100, -- 23 'n'
    0b00111111, -- 24 'O'
    0b01110011, -- 25 'P'
    0b01100111, -- 26 'q'
    0b01010000, -- 27 'r'
    0b01101101, -- 28 'S'
    0b01111000, -- 29 't'
    0b00111110, -- 30 'U'
    0b00111110, -- 31 'V'
    0b00000000, -- 32 'W'
    0b01110110, -- 33 'X'
    0b01101110, -- 34 'y'
    0b01011011, -- 35 'Z'
    0b00000000, -- 36 ' '  BLANK
    0b01000000, -- 37 '-'  MINUS
    0b10000000, -- 38 '.'  DECIMAL POINT
    0b01100011, -- 39 DEGREE
    0b00001000] -- 40 '_'  UNDERSCORE

/-- Embeds `getSegmentCode` (src/sevseg.go:730).  Every call site in the source
passes an index below 41, so the default value of `getD` is never used. -/
def getSegmentCode (index : Nat) : Nat :=
  segmentCodes.getD index 0

/-- Shallow embedding of the `SevSeg` struct (src/sevseg.go:73).
`digitCount` stands for `len(digitPins)` and `segmentPinCount` for
`len(segmentPins)`; the pins themselves carry no state the claims need. -/
structure SevSeg where
  isCommonCathode : Bool
  isSoftwarePWM : Bool
  digitCount : Nat
  segmentPinCount : Nat
  useLeadingZeros : Bool
  enabled : Bool
  brightness : Nat
  scrollPosition : Int
  textPattern : List Nat
  pwmCounter : Nat
  currentDigitToRefresh : Nat
  updatedDisplay : List Nat
  deriving Repr, DecidableEq

/-- Embeds `charToSegmentPattern` (src/sevseg.go:569); `char` is the byte value. -/
def charToSegmentPattern (char : Nat) : Option Nat :=
  let c := if 97 ≤ char ∧ char ≤ 122 then char - 97 + 65 else char
  if 48 ≤ c ∧ c ≤ 57 then some (getSegmentCode (c - 48))
  else if 65 ≤ c ∧ c ≤ 90 then some (getSegmentCode (c - 65 + 10))
  else if c = 32 then some (getSegmentCode 36)
  else if c = 45 then some (getSegmentCode 37)
  else if c = 46 then some (getSegmentCode 38)
  else if c = 42 then some (getSegmentCode 39)
  else if c = 95 then some (getSegmentCode 40)
  else none

/-- Number of iterations of the `for ; number > 0; number /= base` loop of
`checkAvailableDigits` (src/sevseg.go:559); the source only calls it with
base 10 or 16, so the `2 ≤ base` guard is vacuous there. -/
def digitLoop (base : Nat) (n : Nat) : Nat :=
  if h : 2 ≤ base ∧ 0 < n then digitLoop base (n / base) + 1 else 0
termination_by n
decreasing_by exact Nat.div_lt_self h.2 h.1

/-- Go `int32` negation: `-x` wraps to itself at the minimum value. -/
def int32neg (n : Int) : Int :=
  if n = -(2 ^ 31 : Int) then n else -n

/-- Reinterpret a `uint32` value as Go's `int32(number)` cast. -/
def int32ofUInt32 (n : Nat) : Int :=
  if n < 2 ^ 31 then (n : Int) else (n : Int) - 2 ^ 32

/-- Embeds `checkAvailableDigits` (src/sevseg.go:547).  `count` is a `uint8` but
stays below 35 for any `int32` input, so only the cast of
`len(s.digitPins)` to `uint8` needs a `% 256`. -/
def checkAvailableDigits (dc : Nat) (number : Int) (base : Nat) : Bool :=
  if number = 0 then 1 ≤ dc % 256
  else
    let cnt0 : Nat := if number < 0 then 2 else 1
    let m : Int := if number < 0 then int32neg number else number
    let cnt : Nat := if m ≤ 0 then cnt0 else cnt0 + digitLoop base m.toNat
    cnt - 1 ≤ dc % 256

/-- Embeds `setNumberInitPattern` (src/sevseg.go:642). -/
def setNumberInitPattern (s : SevSeg) : SevSeg :=
  let initPattern := if s.useLeadingZeros then getSegmentCode 0 else getSegmentCode 36
  { s with updatedDisplay := s.updatedDisplay.map fun _ => initPattern }

/-- The digit-writing loop shared by `SetNumber` (src/sevseg.go:246) and
`SetHex` (src/sevseg.go:344): while `0 < n` and `pos < dc`, write the
segment code of the next base-`base` digit at `pos` and divide.  Returns
the final position together with the buffer.  (`uint8(number) % 16` in
`SetHex` equals `number % 16`, and `uint8(number % 10)` equals
`number % 10`, so both digit extractions are `n % base`.) -/
def writeDigits (base dc : Nat) (n pos : Nat) (buf : List Nat) : Nat × List Nat :=
  if h : 2 ≤ base ∧ 0 < n ∧ pos < dc then
    writeDigits base dc (n / base) (pos + 1) (buf.set pos (getSegmentCode (n % base)))
  else (pos, buf)
termination_by n
decreasing_by exact Nat.div_lt_self h.2.1 h.1

/-- Embeds `SetNumber` (src/sevseg.go:230); `number` is the `int32` argument. -/
def setNumber (s : SevSeg) (number : Int) : Bool × SevSeg :=
  if checkAvailableDigits s.digitCount number 10 = false then (false, s)
  else
    let s1 := setNumberInitPattern s
    let isNegative := decide (number < 0)
    let n := if number < 0 then int32neg number else number
    let res :=
      if n = 0 then (0, s1.updatedDisplay.set 0 (getSegmentCode 0))
      else writeDigits 10 s.digitCount n.toNat 0 s1.updatedDisplay
    let buf := if isNegative then res.2.set res.1 (getSegmentCode 37) else res.2
    (true, { s1 with updatedDisplay := buf })

/-- Embeds `SetHex` (src/sevseg.go:333); `number` is the `uint32` argument (taken
`% 2^32`), and the capacity check receives Go's `int32(number)` cast. -/
def setHex (s : SevSeg) (number : Nat) : Bool × SevSeg :=
  let n := number % 2 ^ 32
  if checkAvailableDigits s.digitCount (int32ofUInt32 n) 16 = false then (false, s)
  else
    let s1 := setNumberInitPattern s
    let res :=
      if n = 0 then (0, s1.updatedDisplay.set 0 (getSegmentCode 0))
      else writeDigits 16 s.digitCount n 0 s1.updatedDisplay
    (true, { s1 with updatedDisplay := res.2 })

/-- The decimal-point loop of `SetNumberWithMultipleDecimals`
(src/sevseg.go:321): each position is re-checked against `uint8(dc)` and
then `updatedDisplay[p] |= getSegmentCode(38)`; an index at or beyond the
buffer length would panic in Go, modelled as `none`. -/
def orLoop (dc8 : Nat) (buf : List Nat) : List Nat → Option (Bool × List Nat)
  | [] => some (true, buf)
  | p :: rest =>
    if dc8 < p then some (false, buf)
    else if p < buf.length then
      orLoop dc8 (buf.set p (buf.getD p 0 ||| getSegmentCode 38)) rest
    else none

/-- Embeds `SetNumberWithMultipleDecimals` (src/sevseg.go:302).  The positions are
`uint8` parameters, hence the `% 256` at entry.  `none` models the panic of
an out-of-bounds buffer write. -/
def setNumberWithMultipleDecimals (s : SevSeg) (number : Int) (positions : List Nat) :
    Option (Bool × SevSeg) :=
  let ps := positions.map (· % 256)
  if ps = [] then some (false, s)
  else if ps.any fun p => decide (s.digitCount % 256 < p) then some (false, s)
  else if s.segmentPinCount < 8 then some (false, s)
  else
    match setNumber s number with
    | (false, s1) => some (false, s1)
    | (true, s1) =>
      match orLoop (s.digitCount % 256) s1.updatedDisplay ps with
      | none => none
      | some (ok, buf) => some (ok, { s1 with updatedDisplay := buf })

/-- Embeds `SetNumberWithDecimal` (src/sevseg.go:290). -/
def setNumberWithDecimal (s : SevSeg) (number : Int) (decimalPointPosition : Nat) :
    Option (Bool × SevSeg) :=
  setNumberWithMultipleDecimals s number [decimalPointPosition]

/-- Embeds `SetTemperature` (src/sevseg.go:356) with the float computation
abstracted: `scaled` stands for the Go value
`int32(temperature * float32(scale))` where `scale = 10^(decimalPlaces+1)`.
Every step from the digit-count floor check onwards is embedded from the
source; `none` models a panicking buffer access. -/
def setTemperatureScaled (s : SevSeg) (scaled : Int) (decimalPlaces : Nat) :
    Option (Bool × SevSeg) :=
  if s.digitCount ≤ 1 then some (false, s)
  else if checkAvailableDigits s.digitCount scaled 10 = false then some (false, s)
  else
    let dp := decimalPlaces % 256
    let step :=
      if 0 < dp then setNumberWithDecimal s scaled ((dp + 1) % 256)
      else some (setNumber s scaled)
    match step with
    | none => none
    | some (false, s2) => some (false, s2)
    | some (true, s2) =>
      if 0 < s2.updatedDisplay.length then
        some (true, { s2 with updatedDisplay := s2.updatedDisplay.set 0 (getSegmentCode 39) })
      else none

/-- Embeds `SetTemperatureWithUnit` (src/sevseg.go:390), float-abstracted like
`setTemperatureScaled`: `scaled` stands for the value the nested
`SetTemperature(temperature*10, adjustedDecimalPlaces)` call computes as
`int32((temperature*10) * float32(scale))`. -/
def setTemperatureWithUnitScaled (s : SevSeg) (scaled : Int) (decimalPlaces : Nat)
    (unitIsFahrenheit : Bool) : Option (Bool × SevSeg) :=
  if s.digitCount ≤ 2 then some (false, s)
  else
    let dp := decimalPlaces % 256
    let adjusted := if 0 < dp then (dp + 1) % 256 else dp
    match setTemperatureScaled s scaled adjusted with
    | none => none
    | some (false, s2) => some (false, s2)
    | some (true, s2) =>
      if 1 < s2.updatedDisplay.length then
        let buf1 := s2.updatedDisplay.set 1 (getSegmentCode 39)
        let buf2 := buf1.set 0 (getSegmentCode 12)
        let buf3 := if unitIsFahrenheit then buf2.set 0 (getSegmentCode 15) else buf2
        some (true, { s2 with updatedDisplay := buf3 })
      else none

/-- Go's built-in `copy(dst, src)`: overwrites the first
`min (length dst) (length src)` entries of `dst` with `src`. -/
def goCopy : List Nat → List Nat → List Nat
  | dst, [] => dst
  | [], _ => []
  | _ :: dst, x :: src => x :: goCopy dst src

/-- Embeds `SetSegment` (src/sevseg.go:434). -/
def setSegment (s : SevSeg) (pattern : List Nat) : Bool × SevSeg :=
  if s.digitCount < pattern.length then (false, s)
  else (true, { s with updatedDisplay := goCopy s.updatedDisplay pattern })

/-- Embeds `Clear` (src/sevseg.go:175). -/
def clear (s : SevSeg) : SevSeg :=
  { s with updatedDisplay := s.updatedDisplay.map fun _ => getSegmentCode 36 }

/-- The character loop of `SetText` (src/sevseg.go:465): fills
`textPattern` left to right, stopping with `false` at the first
unsupported character (the pattern keeps the entries already written). -/
def fillPattern (pat : List Nat) (i : Nat) : List Nat → Bool × List Nat
  | [] => (true, pat)
  | ch :: rest =>
    match charToSegmentPattern ch with
    | none => (false, pat)
    | some seg => fillPattern (pat.set i seg) (i + 1) rest

/-- The wrap-gap loop of `SetText` (src/sevseg.go:474): writes
`displayWidth` blank codes starting at index `textLength`. -/
def padBlanks (pat : List Nat) (idx : Nat) : Nat → List Nat
  | 0 => pat
  | n + 1 => padBlanks (pat.set idx (getSegmentCode 36)) (idx + 1) n

/-- The scrolling branch of `updateDisplayFromPatterns`
(src/sevseg.go:713): `buf[w-1-i] = pat[(scrollPosition+i) % patternLength]`
for `i < w`.  Go `%` on `int` truncates towards zero (`Int.tmod`); the
scroll position is never negative in the source, so the index is in range
and `getD`'s default is never used. -/
def scrollProject (pat : List Nat) (pl : Nat) (sp : Int) (w : Nat) (i : Nat)
    (buf : List Nat) : List Nat :=
  if i < w then
    scrollProject pat pl sp w (i + 1)
      (buf.set (w - 1 - i) (pat.getD ((sp + i).tmod pl).toNat 0))
  else buf
termination_by w - i

/-- The non-scrolling branch of `updateDisplayFromPatterns`
(src/sevseg.go:718). -/
def directProject (pat : List Nat) (pl w i : Nat) (buf : List Nat) : List Nat :=
  if i < w then
    let v := if i < pl then pat.getD i 0 else getSegmentCode 36
    directProject pat pl w (i + 1) (buf.set (w - 1 - i) v)
  else buf
termination_by w - i

/-- Embeds `updateDisplayFromPatterns` (src/sevseg.go:708). -/
def updateDisplayFromPatterns (s : SevSeg) : SevSeg :=
  let w := s.digitCount
  let pl := s.textPattern.length
  if pl > w then
    { s with updatedDisplay := scrollProject s.textPattern pl s.scrollPosition w 0 s.updatedDisplay }
  else
    { s with updatedDisplay := directProject s.textPattern pl w 0 s.updatedDisplay }

/-- Embeds `SetText` (src/sevseg.go:451); the text is the list of its bytes. -/
def setText (s : SevSeg) (text : List Nat) : Bool × SevSeg :=
  let s1 := { clear s with scrollPosition := (0 : Int) }
  let textLength := text.length
  let displayWidth := s.digitCount
  let reserved := if textLength > displayWidth then textLength + displayWidth else textLength
  let filled := fillPattern (List.replicate reserved 0) 0 text
  if filled.1 = false then (false, { s1 with textPattern := filled.2 })
  else
    let pat2 :=
      if textLength > displayWidth then padBlanks filled.2 textLength displayWidth
      else filled.2
    (true, updateDisplayFromPatterns { s1 with textPattern := pat2 })

/-- Embeds `SetBrightness` (src/sevseg.go:215); the argument is a `uint8`.  Note
that the `brightness > 100` branch assigns the clamped value to the local
parameter only, exactly as the source does. -/
def setBrightness (s : SevSeg) (brightness : Nat) : SevSeg :=
  let b := brightness % 256
  let s1 := { s with enabled := decide (b ≠ 0) }
  if 100 < b then s1 else { s1 with brightness := b }

/-- Embeds `Toggle` (src/sevseg.go:170). -/
def toggle (s : SevSeg) (enable : Bool) : SevSeg :=
  { s with enabled := enable }

/-- Embeds `Off` (src/sevseg.go:185); the digit/segment pin clears are electrical
effects with no model state. -/
def off (s : SevSeg) : SevSeg :=
  { s with enabled := false }

/-- Embeds `On` (src/sevseg.go:192); `on` is not a legal Lean name. -/
def turnOn (s : SevSeg) : SevSeg :=
  let s1 := { s with enabled := true }
  if s1.brightness = 0 then { s1 with brightness := 100 } else s1

/-- Embeds `softwarePWM` (src/sevseg.go:696).  `pwmCounter` and `brightness` are
`uint8`, hence the `% 256` on their sums. -/
def softwarePWM (s : SevSeg) : SevSeg :=
  let counter := (s.pwmCounter + 1) % 256 % 10
  let brightnessLevel := (s.brightness + 9) % 256 / 10
  { s with
    pwmCounter := counter
    enabled := decide (0 < brightnessLevel) &&
      (decide (10 ≤ brightnessLevel) || decide (counter < brightnessLevel)) }

/-- The outcome of one `Refresh` tick: the boolean return value, the new
state, which digit line (if any) was driven to active polarity, and
whether `setSegmentPins` ran (when it did not, all digit lines stay at
inactive polarity from the initial `clearDigitPins`, i.e. the display is
dark this tick). -/
structure RefreshResult where
  ok : Bool
  state : SevSeg
  energizedDigit : Option Nat
  segmentsDriven : Bool
  deriving Repr, DecidableEq

/-- Embeds `Refresh` (src/sevseg.go:512).  `none` models a Go panic: the
`updatedDisplay[currentDigitToRefresh]` read of `setSegmentPins` when the
cursor is out of range (and there is at least one segment pin), or the
`% uint8(len(digitPins))` when that cast is zero. -/
def refresh (s : SevSeg) : Option RefreshResult :=
  if s.updatedDisplay.length = 0 then some ⟨false, s, none, false⟩
  else
    let s1 := if s.isSoftwarePWM then softwarePWM s else s
    if s1.enabled = false then some ⟨false, s1, none, false⟩
    else if 0 < s1.segmentPinCount ∧ s1.updatedDisplay.length ≤ s1.currentDigitToRefresh then
      none
    else
      let energized :=
        if s1.currentDigitToRefresh < s1.digitCount % 256 then
          some s1.currentDigitToRefresh
        else none
      if s1.digitCount % 256 = 0 then none
      else
        some ⟨true,
          { s1 with currentDigitToRefresh :=
              (s1.currentDigitToRefresh + 1) % 256 % (s1.digitCount % 256) },
          energized, true⟩

/-! ## Specification-side helper functions -/

/-- Base-`base` digits of `n`, least significant first (`[]` for `n = 0`). -/
def natDigits (base : Nat) (n : Nat) : List Nat :=
  if h : 2 ≤ base ∧ 0 < n then n % base :: natDigits base (n / base) else []
termination_by n
decreasing_by exact Nat.div_lt_self h.2 h.1

/-- Number of base-`base` digits of `n`, counting `0` as one digit. -/
def numDigits (base n : Nat) : Nat :=
  if n = 0 then 1 else (natDigits base n).length

/-- Minimum display slots a decimal `int32` value needs: its digit count
plus one slot for the minus sign when negative. -/
def minSlots (n : Int) : Nat :=
  if n < 0 then numDigits 10 (-n).toNat + 1 else numDigits 10 n.toNat

/-- Overwrite `buf` with the elements of `xs`, starting at index `pos`. -/
def overwrite (buf : List Nat) (pos : Nat) : List Nat → List Nat
  | [] => buf
  | x :: xs => overwrite (buf.set pos x) (pos + 1) xs

/-- OR the decimal-point mask into `buf` at each listed position. -/
def applyDPs (buf : List Nat) : List Nat → List Nat
  | [] => buf
  | p :: ps => applyDPs (buf.set p (buf.getD p 0 ||| getSegmentCode 38)) ps

/-- Display slots the capacity check effectively computes for an `int32`
value other than `-2^31`: digit count in the given base, plus one slot for
the minus sign when negative. -/
def slotsFor (base : Nat) (n : Int) : Nat :=
  if n = 0 then 1
  else if n < 0 then (natDigits base (-n).toNat).length + 1
  else (natDigits base n.toNat).length

/-- The counter update of `softwarePWM` as a pure function. -/
def pwmStep (c : Nat) : Nat := (c + 1) % 256 % 10

/-- The enabled decision of `softwarePWM` as a pure function of the
brightness and the pre-tick counter. -/
def pwmEnabled (b c : Nat) : Bool :=
  decide (0 < (b + 9) % 256 / 10) &&
    (decide (10 ≤ (b + 9) % 256 / 10) || decide (pwmStep c < (b + 9) % 256 / 10))

/-- The `enabled` decisions of `k` consecutive software-PWM ticks. -/
def pwmRun : Nat → SevSeg → List Bool
  | 0, _ => []
  | k + 1, s =>
    let s1 := softwarePWM s
    s1.enabled :: pwmRun k s1

/-- Pure image of `pwmRun` over brightness and counter values. -/
def pwmRunPure (b : Nat) : Nat → Nat → List Bool
  | 0, _ => []
  | k + 1, c => pwmEnabled b c :: pwmRunPure b k (pwmStep c)

/-- A freshly constructed display with the given digit count and display
buffer, as `NewSevSeg` (src/sevseg.go:96) leaves it: software PWM, common
cathode, 8 segment pins, no leading zeros, enabled, brightness 100. -/
def demoDisplay (dc : Nat) (buf : List Nat) : SevSeg :=
  { isCommonCathode := true, isSoftwarePWM := true, digitCount := dc,
    segmentPinCount := 8, useLeadingZeros := false, enabled := true,
    brightness := 100, scrollPosition := 0, textPattern := [],
    pwmCounter := 0, currentDigitToRefresh := 0, updatedDisplay := buf }

/-! ## Helper lemmas -/

theorem getD_set_self (l : List Nat) (i v : Nat) (h : i < l.length) :
    (l.set i v).getD i 0 = v := by
  induction l generalizing i with
  | nil => simp at h
  | cons a t ih =>
    cases i with
    | zero => rfl
    | succ j => simpa using ih j (by simpa using h)

theorem getD_set_ne (l : List Nat) {i j : Nat} (v : Nat) (h : i ≠ j) :
    (l.set i v).getD j 0 = l.getD j 0 := by
  induction l generalizing i j with
  | nil => simp [List.set]
  | cons a t ih =>
    cases i with
    | zero =>
      cases j with
      | zero => exact absurd rfl h
      | succ _ => rfl
    | succ i' =>
      cases j with
      | zero => rfl
      | succ j' => simpa using ih (i := i') (j := j') (by omega)

theorem digitLoop_eq_length (base : Nat) :
    ∀ n, digitLoop base n = (natDigits base n).length := by
  intro n
  induction n using Nat.strong_induction_on with
  | _ n ih =>
    rw [digitLoop, natDigits]
    split
    next h => simpa using ih _ (Nat.div_lt_self h.2 h.1)
    next => simp

theorem writeDigits_length (base dc : Nat) :
    ∀ n pos buf, ((writeDigits base dc n pos buf).2).length = buf.length := by
  intro n
  induction n using Nat.strong_induction_on with
  | _ n ih =>
    intro pos buf
    rw [writeDigits]
    split
    next h =>
      rw [ih _ (Nat.div_lt_self h.2.1 h.1) (pos + 1) (buf.set pos (getSegmentCode (n % base)))]
      simp
    next => rfl

theorem writeDigits_spec (base dc : Nat) :
    ∀ n pos buf, 2 ≤ base → pos + (natDigits base n).length ≤ dc →
      writeDigits base dc n pos buf =
        (pos + (natDigits base n).length,
          overwrite buf pos ((natDigits base n).map getSegmentCode)) := by
  intro n
  induction n using Nat.strong_induction_on with
  | _ n ih =>
    intro pos buf hbase hle
    by_cases hn : 0 < n
    · have hdig : natDigits base n = n % base :: natDigits base (n / base) := by
        rw [natDigits, dif_pos ⟨hbase, hn⟩]
      rw [hdig] at hle ⊢
      simp only [List.length_cons] at hle
      have hpos : pos < dc := by omega
      rw [writeDigits, dif_pos ⟨hbase, hn, hpos⟩,
        ih _ (Nat.div_lt_self hn hbase) (pos + 1) _ hbase (by omega)]
      simp only [List.map_cons, overwrite, Prod.mk.injEq, List.length_cons]
      exact ⟨by omega, trivial⟩
    · have hdig : natDigits base n = [] := by
        rw [natDigits, dif_neg fun hc => hn hc.2]
      rw [hdig, writeDigits, dif_neg fun hc => hn hc.2.1]
      simp [overwrite]

theorem overwrite_length : ∀ (xs buf : List Nat) (pos : Nat),
    (overwrite buf pos xs).length = buf.length := by
  intro xs
  induction xs with
  | nil => intro buf pos; rfl
  | cons x t ih =>
    intro buf pos
    rw [overwrite, ih (buf.set pos x) (pos + 1)]
    simp

theorem applyDPs_length : ∀ (ps buf : List Nat),
    (applyDPs buf ps).length = buf.length := by
  intro ps
  induction ps with
  | nil => intro buf; rfl
  | cons p t ih =>
    intro buf
    rw [applyDPs, ih (buf.set p (buf.getD p 0 ||| getSegmentCode 38))]
    simp

theorem checkAvailableDigits_eq (dc : Nat) (n : Int) (base : Nat)
    (hdc : dc < 256) (hn : n ≠ -(2 ^ 31)) :
    checkAvailableDigits dc n base = decide (slotsFor base n ≤ dc) := by
  unfold checkAvailableDigits slotsFor
  rw [Nat.mod_eq_of_lt hdc]
  by_cases h0 : n = 0
  · simp [h0]
  · rw [if_neg h0, if_neg h0]
    by_cases hneg : n < 0
    · simp only [if_pos hneg, int32neg, if_neg hn]
      have hpos : ¬ (-n ≤ (0 : Int)) := by omega
      rw [if_neg hpos, digitLoop_eq_length]
      simp only [decide_eq_decide]
      omega
    · simp only [if_neg hneg]
      have hpos : ¬ (n ≤ (0 : Int)) := by omega
      rw [if_neg hpos, digitLoop_eq_length]
      simp only [decide_eq_decide]
      omega

theorem setNumber_length (s : SevSeg) (n : Int) :
    ((setNumber s n).2).updatedDisplay.length = s.updatedDisplay.length := by
  unfold setNumber
  split
  · rfl
  · simp only [setNumberInitPattern]
    split <;> split <;> (try split) <;> simp [writeDigits_length]

theorem orLoop_spec (dc8 : Nat) : ∀ (ps buf : List Nat),
    (∀ p ∈ ps, p ≤ dc8 ∧ p < buf.length) →
    orLoop dc8 buf ps = some (true, applyDPs buf ps) := by
  intro ps
  induction ps with
  | nil => intro buf _; rfl
  | cons p rest ih =>
    intro buf h
    obtain ⟨hp, hplen⟩ := h p (List.mem_cons_self p rest)
    rw [orLoop, if_neg (by omega), if_pos hplen, applyDPs]
    exact ih _ fun q hq => by
      simpa using h q (List.mem_cons_of_mem p hq)

theorem map_mod256_eq : ∀ (ps : List Nat), (∀ p ∈ ps, p < 256) →
    ps.map (· % 256) = ps := by
  intro ps
  induction ps with
  | nil => intro _; rfl
  | cons p t ih =>
    intro h
    simp only [List.map_cons]
    rw [Nat.mod_eq_of_lt (h p (List.mem_cons_self p t)),
      ih fun q hq => h q (List.mem_cons_of_mem p hq)]

theorem fillPattern_false_iff : ∀ (text pat : List Nat) (i : Nat),
    (fillPattern pat i text).1 = false ↔ ∃ ch ∈ text, charToSegmentPattern ch = none := by
  intro text
  induction text with
  | nil => intro pat i; simp [fillPattern]
  | cons ch rest ih =>
    intro pat i
    rw [fillPattern]
    cases hch : charToSegmentPattern ch with
    | none =>
      exact iff_of_true rfl ⟨ch, List.mem_cons_self ch rest, hch⟩
    | some seg => simp [hch, ih]

theorem fillPattern_run : ∀ (text pat : List Nat) (i : Nat),
    (∃ ch ∈ text, charToSegmentPattern ch = none) →
    fillPattern pat i text =
      (false, overwrite pat i
        ((text.takeWhile fun ch => (charToSegmentPattern ch).isSome).map
          fun ch => (charToSegmentPattern ch).getD 0)) := by
  intro text
  induction text with
  | nil => intro pat i h; simp at h
  | cons ch rest ih =>
    intro pat i h
    cases hch : charToSegmentPattern ch with
    | none =>
      simp [fillPattern, hch, List.takeWhile_cons, overwrite]
    | some seg =>
      have hrest : ∃ c ∈ rest, charToSegmentPattern c = none := by
        obtain ⟨c, hc, hcn⟩ := h
        cases hc with
        | head => rw [hch] at hcn; cases hcn
        | tail _ hmem => exact ⟨c, hmem, hcn⟩
      rw [fillPattern]
      simp only [hch]
      rw [ih _ (i + 1) hrest]
      simp [List.takeWhile_cons, hch, overwrite]

theorem goCopy_getD_lt : ∀ (src dst : List Nat) (i : Nat),
    i < src.length → i < dst.length →
    (goCopy dst src).getD i 0 = src.getD i 0 := by
  intro src
  induction src with
  | nil => intro dst i h _; simp at h
  | cons x t ih =>
    intro dst i h hd
    cases dst with
    | nil => simp at hd
    | cons d dt =>
      cases i with
      | zero => rfl
      | succ j => simpa [goCopy] using ih dt j (by simpa using h) (by simpa using hd)

theorem goCopy_getD_ge : ∀ (src dst : List Nat) (i : Nat), src.length ≤ i →
    (goCopy dst src).getD i 0 = dst.getD i 0 := by
  intro src
  induction src with
  | nil => intro dst i _; cases dst <;> rfl
  | cons x t ih =>
    intro dst i h
    cases dst with
    | nil => rfl
    | cons d dt =>
      cases i with
      | zero => simp at h
      | succ j => simpa [goCopy] using ih dt j (by simpa using h)

theorem softwarePWM_eq (s : SevSeg) :
    softwarePWM s = { s with pwmCounter := pwmStep s.pwmCounter,
                             enabled := pwmEnabled s.brightness s.pwmCounter } := rfl

theorem pwmRun_eq : ∀ (k : Nat) (s : SevSeg),
    pwmRun k s = pwmRunPure s.brightness k s.pwmCounter := by
  intro k
  induction k with
  | zero => intro s; rfl
  | succ k ih =>
    intro s
    rw [pwmRun, pwmRunPure, ih (softwarePWM s)]
    rfl

theorem pwm50_count : ∀ c < 10, ((pwmRunPure 50 10 c).count true) = 5 := by decide

theorem map_const_replicate (l : List Nat) (b : Nat) :
    l.map (fun _ => b) = List.replicate l.length b := by
  induction l with
  | nil => rfl
  | cons a t ih => simp [ih, List.replicate_succ]

theorem slotsFor_natCast (base : Nat) (n : Nat) :
    slotsFor base (n : Int) = numDigits base n := by
  unfold slotsFor numDigits
  by_cases h0 : n = 0
  · simp [h0]
  · rw [if_neg (by exact_mod_cast h0), if_neg (by omega), if_neg h0]
    simp

theorem slotsFor_eq_minSlots (n : Int) : slotsFor 10 n = minSlots n := by
  unfold slotsFor minSlots numDigits
  by_cases h0 : n = 0
  · have : ¬ (n < 0) := by omega
    rw [if_pos h0, if_neg this, h0]
    simp [natDigits]
  · by_cases hneg : n < 0
    · rw [if_neg h0, if_pos hneg, if_pos hneg, if_neg (by omega : ¬ (-n).toNat = 0)]
    · rw [if_neg h0, if_neg hneg, if_neg hneg, if_neg (by omega : ¬ n.toNat = 0)]

/-! ## Claim C1 -/

/-- Claim C1 (code bug): with software PWM and nonzero stored brightness,
the first `Refresh` after `Off()` or `Toggle(false)` already energizes
digit line 0 again — `softwarePWM` recomputes `enabled` from `brightness`
on every tick, overriding the disable, so refresh ticks do not leave the
display dark until a re-enable as the claim states. -/
theorem C1_refresh_after_off_energizes :
    (refresh (off (demoDisplay 2 [6, 6]))).map
        (fun r => (r.ok, r.energizedDigit, r.state.enabled)) =
      some (true, some 0, true) ∧
    (refresh (toggle (demoDisplay 2 [6, 6]) false)).map
        (fun r => (r.ok, r.energizedDigit)) = some (true, some 0) :=
  ⟨rfl, rfl⟩

/-! ## Claim C2 -/

/-- Claim C2 counterexample: `SetText` with the single unsupported
character `'~'` (byte 126) returns failure but does not leave the display
state unmodified — the display buffer has already been cleared. -/
theorem C2_counterexample :
    (setText (demoDisplay 2 [0b00111111, 0b0000110]) [126]).1 = false ∧
    (setText (demoDisplay 2 [0b00111111, 0b0000110]) [126]).2.updatedDisplay = [0, 0] ∧
    ([0, 0] : List Nat) ≠ [0b00111111, 0b0000110] :=
  ⟨rfl, rfl, by decide⟩

/-- Claim C2 (amended): for every string containing at least one
unsupported character, `SetText` returns failure — but the display state
is not left unmodified: the display buffer has already been cleared to
all-blank masks, the scroll position reset to 0, and the text pattern
replaced by a freshly allocated zero-initialized pattern of the reserved
length, filled with the segment codes of the characters before the first
unsupported one. -/
theorem C2_setText_unsupported (s : SevSeg) (text : List Nat)
    (h : ∃ ch ∈ text, charToSegmentPattern ch = none) :
    (setText s text).1 = false ∧
    (setText s text).2.updatedDisplay = s.updatedDisplay.map (fun _ => getSegmentCode 36) ∧
    (setText s text).2.scrollPosition = 0 ∧
    (setText s text).2.textPattern =
      overwrite (List.replicate
          (if text.length > s.digitCount then text.length + s.digitCount
           else text.length) 0) 0
        ((text.takeWhile fun ch => (charToSegmentPattern ch).isSome).map
          fun ch => (charToSegmentPattern ch).getD 0) := by
  have hrun := fillPattern_run text
    (List.replicate
      (if text.length > s.digitCount then text.length + s.digitCount else text.length) 0)
    0 h
  have hf : (fillPattern
      (List.replicate
        (if text.length > s.digitCount then text.length + s.digitCount else text.length) 0)
      0 text).1 = false := by
    rw [hrun]
  simp only [setText, hf]
  refine ⟨rfl, by simp [clear], rfl, ?_⟩
  show (fillPattern
      (List.replicate
        (if text.length > s.digitCount then text.length + s.digitCount else text.length) 0)
      0 text).2 = _
  rw [hrun]

/-- Claim C2 witness: concrete instance of the amended claim, for the text
"A~" on a two-digit display showing two '1' glyphs. -/
theorem C2_witness :
    (setText (demoDisplay 2 [6, 6]) [65, 126]).1 = false ∧
    (setText (demoDisplay 2 [6, 6]) [65, 126]).2.updatedDisplay =
      ([6, 6] : List Nat).map (fun _ => getSegmentCode 36) ∧
    (setText (demoDisplay 2 [6, 6]) [65, 126]).2.scrollPosition = 0 ∧
    (setText (demoDisplay 2 [6, 6]) [65, 126]).2.textPattern =
      overwrite (List.replicate
          (if ([65, 126] : List Nat).length > (demoDisplay 2 [6, 6]).digitCount
           then ([65, 126] : List Nat).length + (demoDisplay 2 [6, 6]).digitCount
           else ([65, 126] : List Nat).length) 0) 0
        ((([65, 126] : List Nat).takeWhile fun ch => (charToSegmentPattern ch).isSome).map
          fun ch => (charToSegmentPattern ch).getD 0) :=
  C2_setText_unsupported (demoDisplay 2 [6, 6]) [65, 126] ⟨126, by decide, rfl⟩

/-! ## Claim C4 -/

/-- Claim C4 (code bug): the clamping branch of `SetBrightness` assigns
the clamped value to the local parameter instead of the stored field, so
`SetBrightness(200)` after `SetBrightness(50)` leaves the stored
brightness at 50, not `min 200 100 = 100` as the claim (and the
function's own doc comment) states. -/
theorem C4_setBrightness_not_clamped :
    (setBrightness (setBrightness (demoDisplay 2 [0, 0]) 50) 200).brightness = 50 ∧
    (50 : Nat) ≠ min 200 100 :=
  ⟨rfl, by decide⟩

/-- On a failed capacity check `setNumber` leaves the state untouched. -/
theorem setNumber_fail_state (s : SevSeg) (n : Int) :
    (setNumber s n).1 = false → (setNumber s n).2 = s := by
  unfold setNumber
  split
  · intro _; rfl
  · intro h; simp at h

/-! ## Claim C3 -/

/-- Claim C3 counterexample: on a four-digit, 8-segment-pin display, the
decimal-point position 4 lies within the claim's `[0, digitCount]` range
and the value 0 fits, yet `SetNumberWithMultipleDecimals` does not
succeed: the position passes the `> digitCount` validation and the
decimal-point write indexes the buffer out of bounds — a Go runtime
panic, modelled as `none`. -/
theorem C3_counterexample :
    setNumberWithMultipleDecimals (demoDisplay 4 [0, 0, 0, 0]) 0 [4] = none := rfl

/-- Claim C3 (amended): on a display with 1–255 digits, for every value
that fits and every nonempty list of decimal-point positions each within
`[0, digitCount-1]`, `SetNumberWithMultipleDecimals` (of which
`SetNumberWithDecimal` is the singleton case) on an 8-segment-pin display
succeeds, OR-ing the decimal-point bit into the buffer mask at each given
position; if any position exceeds `digitCount`, or the display has only 7
segment pins, or the list is empty, it fails with the buffer untouched.
A position equal to `digitCount` passes the validation but makes the
decimal-point write index the buffer out of bounds (runtime panic). -/
theorem C3_decimals_spec (s : SevSeg) (number : Int) (ps : List Nat)
    (hlen : s.updatedDisplay.length = s.digitCount)
    (hdc : s.digitCount < 256)
    (hps : ∀ p ∈ ps, p < 256) :
    (∀ p, setNumberWithDecimal s number p = setNumberWithMultipleDecimals s number [p]) ∧
    (ps = [] → setNumberWithMultipleDecimals s number ps = some (false, s)) ∧
    ((∃ p ∈ ps, s.digitCount < p) →
      setNumberWithMultipleDecimals s number ps = some (false, s)) ∧
    ((∀ p ∈ ps, p ≤ s.digitCount) → ps ≠ [] → s.segmentPinCount < 8 →
      setNumberWithMultipleDecimals s number ps = some (false, s)) ∧
    ((∀ p ∈ ps, p ≤ s.digitCount) → ps ≠ [] → 8 ≤ s.segmentPinCount →
      (setNumber s number).1 = false →
      setNumberWithMultipleDecimals s number ps = some (false, s)) ∧
    ((∀ p ∈ ps, p < s.digitCount) → ps ≠ [] → 8 ≤ s.segmentPinCount →
      (setNumber s number).1 = true →
      setNumberWithMultipleDecimals s number ps =
        some (true, { (setNumber s number).2 with
          updatedDisplay := applyDPs (setNumber s number).2.updatedDisplay ps })) := by
  have hmap := map_mod256_eq ps hps
  have hdc8 : s.digitCount % 256 = s.digitCount := Nat.mod_eq_of_lt hdc
  refine ⟨fun p => rfl, ?_, ?_, ?_, ?_, ?_⟩
  · intro hnil
    subst hnil
    rfl
  · rintro ⟨p, hp, hgt⟩
    have hne : ps ≠ [] := by intro h; subst h; simp at hp
    simp only [setNumberWithMultipleDecimals, hmap]
    rw [if_neg hne]
    have hany : (ps.any fun p => decide (s.digitCount % 256 < p)) = true :=
      List.any_eq_true.mpr ⟨p, hp, by simpa [hdc8] using hgt⟩
    rw [if_pos hany]
  · intro hall hne hseg
    simp only [setNumberWithMultipleDecimals, hmap]
    rw [if_neg hne]
    have hanyP : ¬ ((ps.any fun p => decide (s.digitCount % 256 < p)) = true) := by
      rw [List.any_eq_true]
      rintro ⟨p, hp, hdec⟩
      rw [hdc8] at hdec
      simp at hdec
      exact absurd hdec (Nat.not_lt.mpr (hall p hp))
    rw [if_neg hanyP, if_pos hseg]
  · intro hall hne hseg hfail
    simp only [setNumberWithMultipleDecimals, hmap]
    rw [if_neg hne]
    have hanyP : ¬ ((ps.any fun p => decide (s.digitCount % 256 < p)) = true) := by
      rw [List.any_eq_true]
      rintro ⟨p, hp, hdec⟩
      rw [hdc8] at hdec
      simp at hdec
      exact absurd hdec (Nat.not_lt.mpr (hall p hp))
    rw [if_neg hanyP, if_neg (Nat.not_lt.mpr hseg)]
    have hsn : setNumber s number = (false, s) := by
      have h2 := setNumber_fail_state s number hfail
      calc setNumber s number = ((setNumber s number).1, (setNumber s number).2) := rfl
        _ = (false, s) := by rw [hfail, h2]
    simp only [hsn]
  · intro hall hne hseg hsucc
    simp only [setNumberWithMultipleDecimals, hmap]
    rw [if_neg hne]
    have hanyP : ¬ ((ps.any fun p => decide (s.digitCount % 256 < p)) = true) := by
      rw [List.any_eq_true]
      rintro ⟨p, hp, hdec⟩
      rw [hdc8] at hdec
      simp at hdec
      exact absurd hdec (Nat.not_lt.mpr (Nat.le_of_lt (hall p hp)))
    rw [if_neg hanyP, if_neg (Nat.not_lt.mpr hseg)]
    have hsn : setNumber s number = (true, (setNumber s number).2) := by
      calc setNumber s number = ((setNumber s number).1, (setNumber s number).2) := rfl
        _ = _ := by rw [hsucc]
    have hlen2 : (setNumber s number).2.updatedDisplay.length = s.digitCount := by
      rw [setNumber_length, hlen]
    rw [hsn]
    show (match orLoop (s.digitCount % 256) (setNumber s number).2.updatedDisplay ps with
      | none => none
      | some (ok, buf) =>
        some (ok, { (setNumber s number).2 with updatedDisplay := buf })) =
      some (true, { (setNumber s number).2 with
        updatedDisplay := applyDPs (setNumber s number).2.updatedDisplay ps })
    rw [orLoop_spec (s.digitCount % 256) ps (setNumber s number).2.updatedDisplay
      (fun p hp => ⟨by rw [hdc8]; exact Nat.le_of_lt (hall p hp),
        by rw [hlen2]; exact hall p hp⟩)]

/-- Claim C3 witness: the amended success clause at a four-digit display,
value 0, decimal point at position 1. -/
theorem C3_witness :
    setNumberWithMultipleDecimals (demoDisplay 4 [0, 0, 0, 0]) 0 [1] =
      some (true, { (setNumber (demoDisplay 4 [0, 0, 0, 0]) 0).2 with
        updatedDisplay :=
          applyDPs (setNumber (demoDisplay 4 [0, 0, 0, 0]) 0).2.updatedDisplay [1] }) :=
  (C3_decimals_spec (demoDisplay 4 [0, 0, 0, 0]) 0 [1] rfl (by decide)
    (by decide)).2.2.2.2.2 (by decide) (by decide) (by decide) (by decide)

/-! ## Claim C5 -/

/-- Claim C5 counterexample: `SetHex 0xFFFFFFFF` on a two-digit display
succeeds although the value has eight base-16 digits (> 2): the capacity
check receives the value cast to `int32` (i.e. −1), which counts as
fitting, and only the lowest two digits are written. -/
theorem C5_counterexample :
    (setHex (demoDisplay 2 [0, 0]) 4294967295).1 = true ∧
    numDigits 16 4294967295 = 8 ∧
    (demoDisplay 2 [0, 0]).digitCount < 8 := by
  refine ⟨?_, ?_, by decide⟩
  · simp [setHex, checkAvailableDigits, int32ofUInt32, int32neg, digitLoop, demoDisplay]
  · simp [numDigits, natDigits]

/-- Claim C5 (amended): for values below `2^31` (on a display with 1–255
digits) the claim holds: `SetHex` fails leaving the buffer unmodified iff
the number of base-16 digits of the value exceeds `digitCount`, and on
success the buffer holds all hexadecimal digits of the value,
least-significant digit at position 0, the remaining positions holding
the init pattern.  For values at or above `2^31` the capacity check
operates on the value reinterpreted as a negative `int32`, so `SetHex`
can succeed while writing only the lowest `digitCount` digits. -/
theorem C5_setHex_spec (s : SevSeg) (n : Nat)
    (hlen : s.updatedDisplay.length = s.digitCount)
    (hdc : s.digitCount < 256) (hn : n < 2 ^ 31) :
    ((setHex s n).1 = false ↔ s.digitCount < numDigits 16 n) ∧
    ((setHex s n).1 = false → (setHex s n).2 = s) ∧
    ((setHex s n).1 = true → (setHex s n).2.updatedDisplay =
      (if n = 0 then
        (List.replicate s.digitCount
          (if s.useLeadingZeros then getSegmentCode 0 else getSegmentCode 36)).set 0
          (getSegmentCode 0)
       else
        overwrite (List.replicate s.digitCount
          (if s.useLeadingZeros then getSegmentCode 0 else getSegmentCode 36)) 0
          ((natDigits 16 n).map getSegmentCode))) := by
  have hmod : n % 2 ^ 32 = n := Nat.mod_eq_of_lt (by omega)
  have hcast : int32ofUInt32 n = (n : Int) := by
    unfold int32ofUInt32
    rw [if_pos hn]
  have hne : (n : Int) ≠ -(2 ^ 31) := by omega
  have hcheck : checkAvailableDigits s.digitCount (n : Int) 16 =
      decide (numDigits 16 n ≤ s.digitCount) := by
    rw [checkAvailableDigits_eq s.digitCount (n : Int) 16 hdc hne, slotsFor_natCast]
  by_cases hfit : numDigits 16 n ≤ s.digitCount
  · have hcond : ¬ (checkAvailableDigits s.digitCount (int32ofUInt32 (n % 2 ^ 32)) 16
        = false) := by
      rw [hmod, hcast, hcheck]
      simp [hfit]
    refine ⟨?_, ?_, ?_⟩
    · simp only [setHex]
      rw [if_neg hcond]
      exact iff_of_false (by simp) (by omega)
    · intro habs
      simp only [setHex] at habs
      rw [if_neg hcond] at habs
      simp at habs
    · intro _
      simp only [setHex]
      rw [if_neg hcond]
      simp only [setNumberInitPattern]
      rw [map_const_replicate, hlen]
      by_cases h0 : n = 0
      · rw [if_pos (by rw [hmod]; exact h0), if_pos h0]
      · have hlenle : (natDigits 16 n).length ≤ s.digitCount := by
          unfold numDigits at hfit
          rw [if_neg h0] at hfit
          exact hfit
        rw [if_neg (by rw [hmod]; exact h0), hmod,
          writeDigits_spec 16 s.digitCount n 0 _ (by omega) (by omega), if_neg h0]
  · have hcond : checkAvailableDigits s.digitCount (int32ofUInt32 (n % 2 ^ 32)) 16
        = false := by
      rw [hmod, hcast, hcheck]
      simp [hfit]
    refine ⟨?_, ?_, ?_⟩
    · simp only [setHex]
      rw [if_pos hcond]
      exact iff_of_true rfl (by omega)
    · intro _
      simp only [setHex]
      rw [if_pos hcond]
    · intro habs
      simp only [setHex] at habs
      rw [if_pos hcond] at habs
      simp at habs

/-- Claim C5 witness: the amended claim at value `0xBEEF` (4 hex digits)
on two- and four-digit displays — failure below, success at the exact
capacity. -/
theorem C5_witness :
    ((setHex (demoDisplay 2 [0, 0]) 48879).1 = false ↔
      (demoDisplay 2 [0, 0]).digitCount < numDigits 16 48879) ∧
    ((setHex (demoDisplay 4 [0, 0, 0, 0]) 48879).1 = true →
      (setHex (demoDisplay 4 [0, 0, 0, 0]) 48879).2.updatedDisplay =
        (if (48879 : Nat) = 0 then
          (List.replicate (demoDisplay 4 [0, 0, 0, 0]).digitCount
            (if (demoDisplay 4 [0, 0, 0, 0]).useLeadingZeros then getSegmentCode 0
             else getSegmentCode 36)).set 0 (getSegmentCode 0)
         else
          overwrite (List.replicate (demoDisplay 4 [0, 0, 0, 0]).digitCount
            (if (demoDisplay 4 [0, 0, 0, 0]).useLeadingZeros then getSegmentCode 0
             else getSegmentCode 36)) 0
            ((natDigits 16 48879).map getSegmentCode))) :=
  ⟨(C5_setHex_spec (demoDisplay 2 [0, 0]) 48879 rfl (by decide) (by decide)).1,
   (C5_setHex_spec (demoDisplay 4 [0, 0, 0, 0]) 48879 rfl (by decide) (by decide)).2.2⟩

theorem minSlots_neg (m : Int) (hm : m < 0) :
    minSlots m = numDigits 10 (-m).toNat + 1 := by
  unfold minSlots
  rw [if_pos hm]

theorem numDigits_pow31 : numDigits 10 2147483648 = 10 := by
  have hlen : (natDigits 10 2147483648).length = 10 := by simp [natDigits]
  unfold numDigits
  rw [if_neg (by omega : ¬ (2147483648 : Nat) = 0), hlen]

/-! ## Claim C6 -/

/-- Claim C6 counterexample: `SetNumber (-2^31)` needs 11 slots by the
claim's count (10 digits plus the sign) yet succeeds even on a one-digit
display: negating the minimum `int32` wraps to itself, so the capacity
check counts 1 and the digit loop never runs — only a minus glyph is
written at position 0. -/
theorem C6_counterexample :
    (setNumber (demoDisplay 1 [0]) (-2147483648)).1 = true ∧
    (setNumber (demoDisplay 1 [0]) (-2147483648)).2.updatedDisplay = [0b01000000] ∧
    minSlots (-2147483648) = 11 ∧ (demoDisplay 1 [0]).digitCount < 11 := by
  refine ⟨?_, ?_, ?_, by decide⟩
  · simp [setNumber, checkAvailableDigits, int32neg, demoDisplay]
  · have hw : writeDigits 10 1 0 0 [0] = (0, [0]) := by
      rw [writeDigits]
      simp
    simp [setNumber, checkAvailableDigits, int32neg, setNumberInitPattern, demoDisplay,
      hw, getSegmentCode, segmentCodes]
  · calc minSlots (-2147483648)
        = numDigits 10 ((-(-2147483648 : Int)).toNat) + 1 :=
          minSlots_neg (-2147483648) (by omega)
      _ = numDigits 10 2147483648 + 1 := by
          rw [(by omega : (-(-2147483648 : Int)).toNat = 2147483648)]
      _ = 10 + 1 := by rw [numDigits_pow31]
      _ = 11 := rfl

/-- Claim C6 (amended): for every `int32` value other than `-2^31` (on a
display with 1–255 digits) the claim holds: `SetNumber` fails leaving the
buffer unmodified iff the minimum decimal digit count — including one
slot for a minus sign when negative — exceeds `digitCount`; on success
the buffer holds the decimal digits of the absolute value with the
least-significant digit at position 0, every other position pre-filled
with blank (or zero when leading zeros are enabled), zero rendered as a
single "0" glyph, and for a negative value the minus glyph at the first
position beyond the most significant digit.  `SetNumber (-2^31)` instead
passes the capacity check and succeeds, writing only a minus glyph at
position 0. -/
theorem C6_setNumber_spec (s : SevSeg) (n : Int)
    (hlen : s.updatedDisplay.length = s.digitCount)
    (hdc : s.digitCount < 256)
    (hlo : -(2 ^ 31) < n) (hhi : n < 2 ^ 31) :
    ((setNumber s n).1 = false ↔ s.digitCount < minSlots n) ∧
    ((setNumber s n).1 = false → (setNumber s n).2 = s) ∧
    ((setNumber s n).1 = true → (setNumber s n).2.updatedDisplay =
      (if n = 0 then
        (List.replicate s.digitCount
          (if s.useLeadingZeros then getSegmentCode 0 else getSegmentCode 36)).set 0
          (getSegmentCode 0)
       else if 0 < n then
        overwrite (List.replicate s.digitCount
          (if s.useLeadingZeros then getSegmentCode 0 else getSegmentCode 36)) 0
          ((natDigits 10 n.toNat).map getSegmentCode)
       else
        (overwrite (List.replicate s.digitCount
          (if s.useLeadingZeros then getSegmentCode 0 else getSegmentCode 36)) 0
          ((natDigits 10 (-n).toNat).map getSegmentCode)).set
          (natDigits 10 (-n).toNat).length (getSegmentCode 37))) := by
  have hne : n ≠ -(2 ^ 31) := by omega
  have hcheck : checkAvailableDigits s.digitCount n 10 =
      decide (minSlots n ≤ s.digitCount) := by
    rw [checkAvailableDigits_eq s.digitCount n 10 hdc hne, slotsFor_eq_minSlots]
  by_cases hfit : minSlots n ≤ s.digitCount
  · have hcond : ¬ (checkAvailableDigits s.digitCount n 10 = false) := by
      rw [hcheck]
      simp [hfit]
    refine ⟨?_, ?_, ?_⟩
    · simp only [setNumber]
      rw [if_neg hcond]
      exact iff_of_false (by simp) (by omega)
    · intro habs
      simp only [setNumber] at habs
      rw [if_neg hcond] at habs
      simp at habs
    · intro _
      simp only [setNumber]
      rw [if_neg hcond]
      simp only [setNumberInitPattern]
      rw [map_const_replicate, hlen]
      by_cases h0 : n = 0
      · subst h0
        simp
      · by_cases hpos : 0 < n
        · have hng : ¬ (n < 0) := by omega
          have hlenle : (natDigits 10 n.toNat).length ≤ s.digitCount := by
            unfold minSlots numDigits at hfit
            rw [if_neg hng, if_neg (by omega : ¬ n.toNat = 0)] at hfit
            exact hfit
          have hws := writeDigits_spec 10 s.digitCount n.toNat 0
            (List.replicate s.digitCount
              (if s.useLeadingZeros then getSegmentCode 0 else getSegmentCode 36))
            (by omega) (by omega)
          simp [hng, h0, hpos, hws]
        · have hneg : n < 0 := by omega
          have hterm : int32neg n = -n := by
            unfold int32neg
            rw [if_neg hne]
          have hlenle : (natDigits 10 (-n).toNat).length + 1 ≤ s.digitCount := by
            unfold minSlots numDigits at hfit
            rw [if_pos hneg, if_neg (by omega : ¬ (-n).toNat = 0)] at hfit
            omega
          have hws := writeDigits_spec 10 s.digitCount (-n).toNat 0
            (List.replicate s.digitCount
              (if s.useLeadingZeros then getSegmentCode 0 else getSegmentCode 36))
            (by omega) (by omega)
          simp [hneg, h0, hterm, hws, (by omega : ¬ (0 : Int) < n),
            (by omega : ¬ (-n : Int) = 0)]
          rw [if_neg hpos]
  · have hcond : checkAvailableDigits s.digitCount n 10 = false := by
      rw [hcheck]
      simp [hfit]
    refine ⟨?_, ?_, ?_⟩
    · simp only [setNumber]
      rw [if_pos hcond]
      exact iff_of_true rfl (by omega)
    · intro _
      simp only [setNumber]
      rw [if_pos hcond]
    · intro habs
      simp only [setNumber] at habs
      rw [if_pos hcond] at habs
      simp at habs

/-- Claim C6 witness: the amended claim at value −9 on a two-digit
display. -/
theorem C6_witness :
    ((setNumber (demoDisplay 2 [0, 0]) (-9)).1 = false ↔
      (demoDisplay 2 [0, 0]).digitCount < minSlots (-9)) ∧
    ((setNumber (demoDisplay 2 [0, 0]) (-9)).1 = false →
      (setNumber (demoDisplay 2 [0, 0]) (-9)).2 = demoDisplay 2 [0, 0]) :=
  ⟨(C6_setNumber_spec (demoDisplay 2 [0, 0]) (-9) rfl (by decide) (by decide)
      (by decide)).1,
   (C6_setNumber_spec (demoDisplay 2 [0, 0]) (-9) rfl (by decide) (by decide)
      (by decide)).2.1⟩

/-! ## Claim C7 -/

/-- Claim C7 counterexample: with brightness 0 the software PWM disables
the tick and `Refresh` returns early without advancing the cursor — it
stays 0 instead of advancing to `(0+1) % 2 = 1`, so the advance is not
unconditional. -/
theorem C7_counterexample :
    (refresh { demoDisplay 2 [6, 6] with brightness := 0 }).map
        (fun r => (r.ok, r.state.currentDigitToRefresh)) = some (false, 0) ∧
    (0 : Nat) ≠ (0 + 1) % 2 :=
  ⟨rfl, by decide⟩

/-- Claim C7 (amended): for a constructed display state (nonempty buffer
of length `digitCount`, 1–255 digits, cursor in range), `Refresh` never
panics and keeps the cursor within `[0, digitCount)`; the cursor advances
by exactly one modulo `digitCount` on each tick whose enabled decision is
true (such a tick energizes the digit at the old cursor), while a
disabled tick leaves the cursor unchanged and energizes no digit. -/
theorem C7_refresh_cursor (s : SevSeg)
    (hlen : s.updatedDisplay.length = s.digitCount)
    (h1 : 0 < s.digitCount) (hdc : s.digitCount < 256)
    (hcur : s.currentDigitToRefresh < s.digitCount) :
    ∃ r, refresh s = some r ∧
      r.state.currentDigitToRefresh < s.digitCount ∧
      (r.ok = true →
        r.state.currentDigitToRefresh = (s.currentDigitToRefresh + 1) % s.digitCount ∧
        r.energizedDigit = some s.currentDigitToRefresh) ∧
      (r.ok = false →
        r.state.currentDigitToRefresh = s.currentDigitToRefresh ∧
        r.energizedDigit = none) := by
  have hne : ¬ s.updatedDisplay.length = 0 := by omega
  have hs1 : ∃ s1 : SevSeg, (if s.isSoftwarePWM then softwarePWM s else s) = s1 ∧
      s1.currentDigitToRefresh = s.currentDigitToRefresh ∧
      s1.digitCount = s.digitCount ∧
      s1.updatedDisplay = s.updatedDisplay := by
    cases hsw : s.isSoftwarePWM
    · exact ⟨s, by simp [hsw], rfl, rfl, rfl⟩
    · exact ⟨softwarePWM s, by simp [hsw], rfl, rfl, rfl⟩
  obtain ⟨s1, he, hc1, hd1, hu1⟩ := hs1
  unfold refresh
  rw [if_neg hne, he]
  by_cases hen : s1.enabled = false
  · rw [if_pos hen]
    refine ⟨⟨false, s1, none, false⟩, rfl, ?_, ?_, ?_⟩
    · rw [hc1]; exact hcur
    · intro habs; simp at habs
    · intro _; exact ⟨hc1, rfl⟩
  · rw [if_neg hen]
    have hguard : ¬ (0 < s1.segmentPinCount ∧
        s1.updatedDisplay.length ≤ s1.currentDigitToRefresh) := by
      rintro ⟨-, hb⟩
      rw [hu1, hc1, hlen] at hb
      omega
    rw [if_neg hguard]
    have hdcz : ¬ s1.digitCount % 256 = 0 := by
      rw [hd1, Nat.mod_eq_of_lt hdc]
      omega
    rw [if_neg hdcz]
    refine ⟨_, rfl, ?_, ?_, ?_⟩
    · simp only [hc1, hd1, Nat.mod_eq_of_lt hdc]
      exact Nat.mod_lt _ h1
    · intro _
      constructor
      · simp only [hc1, hd1, Nat.mod_eq_of_lt hdc,
          Nat.mod_eq_of_lt (show s.currentDigitToRefresh + 1 < 256 by omega)]
      · have hlt : s1.currentDigitToRefresh < s1.digitCount % 256 := by
          rw [hc1, hd1, Nat.mod_eq_of_lt hdc]; exact hcur
        show (if s1.currentDigitToRefresh < s1.digitCount % 256
            then some s1.currentDigitToRefresh else none) = some s.currentDigitToRefresh
        rw [if_pos hlt, hc1]
    · intro habs; simp at habs

/-- Claim C7 witness: the amended claim at a freshly constructed two-digit
display. -/
theorem C7_witness :
    ∃ r, refresh (demoDisplay 2 [6, 6]) = some r ∧
      r.state.currentDigitToRefresh < (demoDisplay 2 [6, 6]).digitCount ∧
      (r.ok = true →
        r.state.currentDigitToRefresh =
          ((demoDisplay 2 [6, 6]).currentDigitToRefresh + 1) %
            (demoDisplay 2 [6, 6]).digitCount ∧
        r.energizedDigit = some (demoDisplay 2 [6, 6]).currentDigitToRefresh) ∧
      (r.ok = false →
        r.state.currentDigitToRefresh = (demoDisplay 2 [6, 6]).currentDigitToRefresh ∧
        r.energizedDigit = none) :=
  C7_refresh_cursor (demoDisplay 2 [6, 6]) rfl (by decide) (by decide) (by decide)

/-! ## Claim C8 -/

/-- Claim C8: on each software-PWM tick the counter increments modulo 10,
and the display is enabled for the tick iff `ceil(brightness/10) > 0` and
(`ceil(brightness/10) ≥ 10` or the incremented counter is below it) —
`(brightness + 9) / 10` is exactly `ceil(brightness/10)`.  Consequently
brightness 0 is always off, brightness 100 always on, and at brightness
50 exactly 5 of any 10 consecutive ticks are enabled; `Refresh` drives
the segment lines exactly on enabled ticks. -/
theorem C8_softwarePWM_spec (s : SevSeg)
    (hb : s.brightness ≤ 100) (hc : s.pwmCounter < 10) :
    (softwarePWM s).pwmCounter = (s.pwmCounter + 1) % 10 ∧
    ((softwarePWM s).enabled = true ↔
      (0 < (s.brightness + 9) / 10 ∧
        (10 ≤ (s.brightness + 9) / 10 ∨
          (softwarePWM s).pwmCounter < (s.brightness + 9) / 10))) ∧
    (s.brightness = 0 → (softwarePWM s).enabled = false) ∧
    (s.brightness = 100 → (softwarePWM s).enabled = true) ∧
    (s.brightness = 50 → (pwmRun 10 s).count true = 5) ∧
    (s.isSoftwarePWM = true → s.updatedDisplay.length ≠ 0 →
      ∀ r, refresh s = some r → r.segmentsDriven = (softwarePWM s).enabled) := by
  have h256b : (s.brightness + 9) % 256 = s.brightness + 9 :=
    Nat.mod_eq_of_lt (by omega)
  have h256c : (s.pwmCounter + 1) % 256 = s.pwmCounter + 1 :=
    Nat.mod_eq_of_lt (by omega)
  refine ⟨?_, ?_, ?_, ?_, ?_, ?_⟩
  · simp [softwarePWM_eq, pwmStep, h256c]
  · simp [softwarePWM_eq, pwmEnabled, pwmStep, h256b, h256c]
  · intro h0
    simp [softwarePWM_eq, pwmEnabled, h0]
  · intro h100
    simp [softwarePWM_eq, pwmEnabled, h100]
  · intro h50
    rw [pwmRun_eq 10 s, h50]
    exact pwm50_count s.pwmCounter hc
  · intro hsw hlen r hr
    unfold refresh at hr
    rw [if_neg hlen] at hr
    simp only [hsw, if_true] at hr
    by_cases hen : (softwarePWM s).enabled = false
    · rw [if_pos hen] at hr
      cases hr
      simp [hen]
    · rw [if_neg hen] at hr
      split at hr
      · exact absurd hr (by simp)
      · split at hr
        · exact absurd hr (by simp)
        · cases hr
          simp only [Bool.not_eq_false] at hen
          simp [hen]

/-- Claim C8 witness: the PWM contract at a freshly constructed two-digit
display (brightness 100, counter 0). -/
theorem C8_witness :
    ((softwarePWM (demoDisplay 2 [6, 6])).pwmCounter =
      ((demoDisplay 2 [6, 6]).pwmCounter + 1) % 10) ∧
    ((softwarePWM (demoDisplay 2 [6, 6])).enabled = true ↔
      (0 < ((demoDisplay 2 [6, 6]).brightness + 9) / 10 ∧
        (10 ≤ ((demoDisplay 2 [6, 6]).brightness + 9) / 10 ∨
          (softwarePWM (demoDisplay 2 [6, 6])).pwmCounter <
            ((demoDisplay 2 [6, 6]).brightness + 9) / 10))) ∧
    ((demoDisplay 2 [6, 6]).brightness = 0 →
      (softwarePWM (demoDisplay 2 [6, 6])).enabled = false) ∧
    ((demoDisplay 2 [6, 6]).brightness = 100 →
      (softwarePWM (demoDisplay 2 [6, 6])).enabled = true) ∧
    ((demoDisplay 2 [6, 6]).brightness = 50 →
      (pwmRun 10 (demoDisplay 2 [6, 6])).count true = 5) ∧
    ((demoDisplay 2 [6, 6]).isSoftwarePWM = true →
      (demoDisplay 2 [6, 6]).updatedDisplay.length ≠ 0 →
      ∀ r, refresh (demoDisplay 2 [6, 6]) = some r →
        r.segmentsDriven = (softwarePWM (demoDisplay 2 [6, 6])).enabled) :=
  C8_softwarePWM_spec (demoDisplay 2 [6, 6]) (by decide) (by decide)

/-! ## Claim C9 -/

/-- Claim C9 counterexample: `SetTemperature(23.0, 0)` on a four-digit
display (`scaled = 230`) succeeds, but the degree glyph
(`getSegmentCode 39`) lands at buffer index 0 — the lowest index, i.e.
the rightmost digit — while the highest index 3 holds a blank `0`, not
the degree glyph as the claim's leftmost/highest-index placement says. -/
theorem C9_counterexample :
    (setTemperatureScaled (demoDisplay 4 [0, 0, 0, 0]) 230 0).map
        (fun r => (r.1, r.2.updatedDisplay)) =
      some (true, [0b01100011, 0b01001111, 0b01011011, 0b00000000]) ∧
    (0b00000000 : Nat) ≠ getSegmentCode 39 := by
  constructor
  · simp [setTemperatureScaled, checkAvailableDigits, digitLoop, setNumber, int32neg,
      setNumberInitPattern, writeDigits, demoDisplay, getSegmentCode, segmentCodes]
  · decide

/-- Claim C9 (amended): `SetTemperature` requires at least 2 digits and
`SetTemperatureWithUnit` at least 3, each failing below its floor with
the state untouched; on success the degree glyph (plus the unit glyph C
or F for the wider variant) occupies the rightmost digit position(s),
i.e. the lowest buffer indices under the LSB-first order: the degree
glyph at index 0 (index 1 for the unit variant, with the unit glyph at
index 0) — not the highest indices. -/
theorem C9_temperature_glyphs (s : SevSeg) (scaled : Int) (dp : Nat)
    (unitIsF : Bool) :
    (s.digitCount ≤ 1 → setTemperatureScaled s scaled dp = some (false, s)) ∧
    (∀ r, setTemperatureScaled s scaled dp = some (true, r) →
      r.updatedDisplay.getD 0 0 = getSegmentCode 39) ∧
    (s.digitCount ≤ 2 →
      setTemperatureWithUnitScaled s scaled dp unitIsF = some (false, s)) ∧
    (∀ r, setTemperatureWithUnitScaled s scaled dp unitIsF = some (true, r) →
      r.updatedDisplay.getD 0 0 = getSegmentCode (if unitIsF then 15 else 12) ∧
      r.updatedDisplay.getD 1 0 = getSegmentCode 39) := by
  refine ⟨?_, ?_, ?_, ?_⟩
  · intro h
    unfold setTemperatureScaled
    rw [if_pos h]
  · intro r hr
    simp only [setTemperatureScaled] at hr
    split at hr
    · simp at hr
    · split at hr
      · simp at hr
      · split at hr
        next => simp at hr
        next => simp at hr
        next s2 heq =>
          split at hr
          next hpos =>
            simp only [Option.some.injEq, Prod.mk.injEq, true_and] at hr
            subst hr
            exact getD_set_self s2.updatedDisplay 0 (getSegmentCode 39) hpos
          next => simp at hr
  · intro h
    unfold setTemperatureWithUnitScaled
    rw [if_pos h]
  · intro r hr
    simp only [setTemperatureWithUnitScaled] at hr
    split at hr
    · simp at hr
    · cases unitIsF with
      | false =>
        simp only [Bool.false_eq_true, if_false] at hr ⊢
        split at hr
        next => simp at hr
        next => simp at hr
        next s2 heq =>
          split at hr
          next hpos =>
            simp only [Option.some.injEq, Prod.mk.injEq, true_and] at hr
            subst hr
            constructor
            · exact getD_set_self _ 0 (getSegmentCode 12)
                (by simp only [List.length_set]; omega)
            · rw [getD_set_ne _ _ (by decide : (0 : Nat) ≠ 1)]
              exact getD_set_self s2.updatedDisplay 1 (getSegmentCode 39) hpos
          next => simp at hr
      | true =>
        simp only [if_true] at hr ⊢
        split at hr
        next => simp at hr
        next => simp at hr
        next s2 heq =>
          split at hr
          next hpos =>
            simp only [Option.some.injEq, Prod.mk.injEq, true_and] at hr
            subst hr
            constructor
            · exact getD_set_self _ 0 (getSegmentCode 15)
                (by simp only [List.length_set]; omega)
            · rw [getD_set_ne _ _ (by decide : (0 : Nat) ≠ 1),
                getD_set_ne _ _ (by decide : (0 : Nat) ≠ 1)]
              exact getD_set_self s2.updatedDisplay 1 (getSegmentCode 39) hpos
          next => simp at hr

/-- Claim C9 witness: the amended claim at a one-digit display (floor
failure) together with the four-digit success instance covered by the
amended theorem's glyph-position clauses. -/
theorem C9_witness :
    setTemperatureScaled (demoDisplay 1 [0]) 230 0 = some (false, demoDisplay 1 [0]) ∧
    setTemperatureWithUnitScaled (demoDisplay 2 [0, 0]) 230 0 false =
      some (false, demoDisplay 2 [0, 0]) :=
  ⟨(C9_temperature_glyphs (demoDisplay 1 [0]) 230 0 false).1 (by decide),
   (C9_temperature_glyphs (demoDisplay 2 [0, 0]) 230 0 false).2.2.1 (by decide)⟩

/-! ## Claim C10 -/

/-- Claim C10: `SetSegment` with a pattern longer than the digit count
fails with the buffer unchanged; otherwise it succeeds, copies the `k`
given masks into buffer positions `0..k-1`, and leaves every position
from `k` through `digitCount-1` exactly as it was (so the empty pattern
modifies nothing) — it never clears the remaining high positions. -/
theorem C10_setSegment_spec (s : SevSeg) (pattern : List Nat)
    (hlen : s.updatedDisplay.length = s.digitCount) :
    (s.digitCount < pattern.length → setSegment s pattern = (false, s)) ∧
    (pattern.length ≤ s.digitCount →
      (setSegment s pattern).1 = true ∧
      (∀ i, i < pattern.length →
        (setSegment s pattern).2.updatedDisplay.getD i 0 = pattern.getD i 0) ∧
      (∀ i, pattern.length ≤ i →
        (setSegment s pattern).2.updatedDisplay.getD i 0 = s.updatedDisplay.getD i 0)) := by
  constructor
  · intro h
    unfold setSegment
    rw [if_pos h]
  · intro h
    have hnot : ¬ s.digitCount < pattern.length := Nat.not_lt.mpr h
    unfold setSegment
    rw [if_neg hnot]
    refine ⟨rfl, ?_, ?_⟩
    · intro i hi
      exact goCopy_getD_lt pattern s.updatedDisplay i hi (by omega)
    · intro i hi
      exact goCopy_getD_ge pattern s.updatedDisplay i hi

/-- Claim C10 witness: a two-mask pattern on a four-digit display lands in
positions 0 and 1 and leaves positions 2 and 3 untouched. -/
theorem C10_witness :
    (setSegment (demoDisplay 4 [1, 2, 3, 4]) [9, 8]).1 = true ∧
    (setSegment (demoDisplay 4 [1, 2, 3, 4]) [9, 8]).2.updatedDisplay.getD 0 0 = 9 ∧
    (setSegment (demoDisplay 4 [1, 2, 3, 4]) [9, 8]).2.updatedDisplay.getD 3 0 = 4 := by
  have h := (C10_setSegment_spec (demoDisplay 4 [1, 2, 3, 4]) [9, 8] rfl).2 (by decide)
  exact ⟨h.1, by simpa using h.2.1 0 (by decide), by simpa using h.2.2 3 (by decide)⟩

end SevsegModel
